import Mathlib

/-!
Verification development for the static-audit rule engine of
`mcp-server-next-react`.

The TypeScript sources are embedded shallowly:

* The JavaScript regular-expression engine is abstracted by `RegexEngine`:
  `valid p` models whether `new RegExp(p)` succeeds (validity does not
  depend on the flags), `execAll p text` models the list of match start
  indices produced by the `regex.exec` loop over `new RegExp(p, 'gm')`,
  `test p text` models `new RegExp(p).test(text)`, and `globTest path glob`
  models the always-total `matchesGlob` helper (the regex it builds from an
  escaped glob is always syntactically valid).
* Thrown exceptions are modelled with `Except Unit`; `try`/`catch` blocks
  become `match` on the `Except` value.
* Mutable in-memory state (rule lists, the framework-profile cache) is
  passed explicitly.
* The file system seen by the project scanners is a tree of `FsEntry`;
  a file whose `content` is `none` models a file whose `readFileSync`
  throws.
-/

namespace MCP

/-- Abstract interface of the JavaScript regex engine, see the module
doc comment. -/
structure RegexEngine where
  valid : String → Bool
  execAll : String → String → List Nat
  test : String → String → Bool
  globTest : String → String → Bool

/-- Rule severity, from `src/types/schema.ts` (`'critical' | 'high' |
'medium' | 'low'`). -/
inductive Severity
  | critical
  | high
  | medium
  | low
  deriving DecidableEq

/-- Rule scope, from `src/types/schema.ts` (`'code' | 'component' |
'function' | 'config' | 'project'`). -/
inductive Scope
  | code
  | component
  | function
  | config
  | project
  deriving DecidableEq

/-- The `detection` block of a rule (`src/types/schema.ts`); every list
defaults to `[]`, mirroring the `|| []` defaults in `checkRule`. -/
structure Detection where
  patterns : List String := []
  fileGlobs : List String := []
  requirePatterns : List String := []
  requireAbsence : List String := []
  excludePatterns : List String := []
  deriving DecidableEq

/-- A security/accessibility rule (`SecurityRule` / `AccessibilityRule` in
`src/types/schema.ts`); only the fields the analyzers read are kept. -/
structure Rule where
  id : String
  title : String
  scope : Scope
  severity : Severity
  enabled : Bool
  detection : Detection := {}
  recommendation : String := ""
  deriving DecidableEq

/-- One violation as pushed by `checkRule` (`line` is always set there, so
it is not optional here). -/
structure Violation where
  line : Nat
  message : String
  code : String
  deriving DecidableEq

/-- Issue level, the `type` field of `Issue` in `src/types/schema.ts`. -/
inductive IssueType
  | error
  | warning
  | info
  deriving DecidableEq

/-- An `Issue` as built by `analyzeCodeSecurity` /
`analyzeCodeAccessibility`. -/
structure Issue where
  type : IssueType
  category : String
  message : String
  line : Option Nat
  code : String
  fix : String
  deriving DecidableEq

/-- Severity-to-issue-level mapping used by both analyzers:
`rule.severity === 'critical' ? 'error' : rule.severity === 'high' ?
'warning' : 'info'`. -/
def issueTypeOf : Severity → IssueType
  | Severity.critical => IssueType.error
  | Severity.high => IssueType.warning
  | _ => IssueType.info

/-- Suffix test on strings, computed on the underlying character lists
(so that it evaluates by kernel reduction). -/
def strEndsWith (s suf : String) : Bool :=
  suf.toList.isSuffixOf s.toList

/-- The 1-based line of a match offset:
`code.substring(0, match.index).split('\n').length` counts the newline
characters before the offset and adds one. -/
def lineOfIndex (code : String) (i : Nat) : Nat :=
  ((code.toList.take i).count '\n') + 1

/-- JavaScript `Array.prototype.some` with a callback that may throw:
elements are tested left to right and evaluation stops at the first
`true` or the first exception. -/
def jsSome {α : Type} (f : α → Except Unit Bool) : List α → Except Unit Bool
  | [] => Except.ok false
  | x :: xs =>
    match f x with
    | Except.error e => Except.error e
    | Except.ok true => Except.ok true
    | Except.ok false => jsSome f xs

/-- The unguarded pattern test used inside `SecurityAnalyzer.checkRule`
(`src/core/securityAnalyzer.ts`): `new RegExp(pattern)` throws on an
invalid pattern and the result of `.test(code)` is returned otherwise. -/
def securityTestOne (eng : RegexEngine) (code : String) (p : String) :
    Except Unit Bool :=
  if eng.valid p then Except.ok (eng.test p code) else Except.error ()

/-- The guarded pattern test used inside `AccessibilityAnalyzer.checkRule`
(`src/core/accessibilityAnalyzer.ts`): the `try { ... } catch { return
false }` wrapper turns an invalid pattern into `false`. -/
def a11yTestOne (eng : RegexEngine) (code : String) (p : String) : Bool :=
  if eng.valid p then eng.test p code else false

/-- The `scope === 'config'` file-glob gate shared by both `checkRule`
implementations: the rule is skipped when its scope is `config`, its
`fileGlobs` list is non-empty and no glob matches the file path. -/
def scopeSkip (eng : RegexEngine) (filePath : String) (rule : Rule) : Bool :=
  rule.scope == Scope.config
    && !(rule.detection.fileGlobs.any fun g => eng.globTest filePath g)
    && !rule.detection.fileGlobs.isEmpty

/-- The `requireAbsence` half of the per-match gate in
`SecurityAnalyzer.checkRule`: the inner `new RegExp` calls are not
guarded, so an invalid pattern throws (to be caught by the per-pattern
`try`). -/
def securityAbsenceCheck (eng : RegexEngine) (code : String) (d : Detection) :
    Except Unit Bool :=
  if d.requireAbsence.isEmpty = false then
    match jsSome (securityTestOne eng code) d.requireAbsence with
    | Except.error e => Except.error e
    | Except.ok hasAbsence =>
      if hasAbsence then Except.ok false else Except.ok true
  else Except.ok true

/-- The whole per-match gate of `SecurityAnalyzer.checkRule`: first the
`requirePatterns` presence check over the whole text, then the
`requireAbsence` check; returns whether the match survives. -/
def securityMatchSurvives (eng : RegexEngine) (code : String) (d : Detection) :
    Except Unit Bool :=
  if d.requirePatterns.isEmpty = false then
    match jsSome (securityTestOne eng code) d.requirePatterns with
    | Except.error e => Except.error e
    | Except.ok hasRequired =>
      if hasRequired = false then Except.ok false
      else securityAbsenceCheck eng code d
  else securityAbsenceCheck eng code d

/-- The `while ((match = regex.exec(code)) !== null)` loop of
`SecurityAnalyzer.checkRule` over the match offsets of one pattern.
An exception from the gate is caught by the per-pattern `try`, so the
loop stops and the violations pushed so far survive. -/
def securityMatchLoop (eng : RegexEngine) (code : String) (rule : Rule) :
    List Nat → List Violation
  | [] => []
  | i :: rest =>
    match securityMatchSurvives eng code rule.detection with
    | Except.error _ => []
    | Except.ok false => securityMatchLoop eng code rule rest
    | Except.ok true =>
      { line := lineOfIndex code i, message := rule.title, code := rule.id }
        :: securityMatchLoop eng code rule rest

/-- One iteration of the `for (const patternStr of patterns)` loop of
`SecurityAnalyzer.checkRule`: compiling an invalid pattern throws inside
the `try`, which is caught and yields no violations for this pattern. -/
def securityScanPattern (eng : RegexEngine) (code : String) (rule : Rule)
    (p : String) : List Violation :=
  if eng.valid p = false then []
  else securityMatchLoop eng code rule (eng.execAll p code)

/-- The pattern loop of `SecurityAnalyzer.checkRule`; violations are pushed
into one shared array, so the per-pattern lists are concatenated in
pattern order. -/
def securityPatternLoop (eng : RegexEngine) (code : String) (rule : Rule) :
    List String → List Violation
  | [] => []
  | p :: ps =>
    securityScanPattern eng code rule p ++ securityPatternLoop eng code rule ps

/-- `SecurityAnalyzer.checkRule` (`src/core/securityAnalyzer.ts`).
The `excludePatterns` check is NOT wrapped in a `try`, so an invalid
exclude pattern throws out of the whole call. -/
def checkRuleSec (eng : RegexEngine) (code filePath : String) (rule : Rule) :
    Except Unit (List Violation) :=
  if scopeSkip eng filePath rule then Except.ok []
  else
    match jsSome (securityTestOne eng code) rule.detection.excludePatterns with
    | Except.error e => Except.error e
    | Except.ok true => Except.ok []
    | Except.ok false =>
      Except.ok (securityPatternLoop eng code rule rule.detection.patterns)

/-- The per-match gate of `AccessibilityAnalyzer.checkRule`; every inner
regex construction is guarded, so the gate is total. -/
def a11yMatchSurvives (eng : RegexEngine) (code : String) (d : Detection) :
    Bool :=
  if d.requirePatterns.isEmpty = false
      && d.requirePatterns.any (a11yTestOne eng code) = false then false
  else if d.requireAbsence.isEmpty = false
      && d.requireAbsence.any (a11yTestOne eng code) then false
  else true

/-- The exec loop of `AccessibilityAnalyzer.checkRule` over one pattern's
match offsets. -/
def a11yMatchLoop (eng : RegexEngine) (code : String) (rule : Rule) :
    List Nat → List Violation
  | [] => []
  | i :: rest =>
    if a11yMatchSurvives eng code rule.detection then
      { line := lineOfIndex code i, message := rule.title, code := rule.id }
        :: a11yMatchLoop eng code rule rest
    else a11yMatchLoop eng code rule rest

/-- One iteration of the pattern loop of `AccessibilityAnalyzer.checkRule`. -/
def a11yScanPattern (eng : RegexEngine) (code : String) (rule : Rule)
    (p : String) : List Violation :=
  if eng.valid p = false then []
  else a11yMatchLoop eng code rule (eng.execAll p code)

/-- The pattern loop of `AccessibilityAnalyzer.checkRule`. -/
def a11yPatternLoop (eng : RegexEngine) (code : String) (rule : Rule) :
    List String → List Violation
  | [] => []
  | p :: ps =>
    a11yScanPattern eng code rule p ++ a11yPatternLoop eng code rule ps

/-- `AccessibilityAnalyzer.checkRule` (`src/core/accessibilityAnalyzer.ts`).
Every regex construction is guarded, so the function is total. -/
def checkRuleA11y (eng : RegexEngine) (code filePath : String) (rule : Rule) :
    List Violation :=
  if scopeSkip eng filePath rule then []
  else if rule.detection.excludePatterns.any (a11yTestOne eng code) then []
  else a11yPatternLoop eng code rule rule.detection.patterns

/-- The number of issues of a given level in a list. -/
def countType (t : IssueType) (issues : List Issue) : Nat :=
  (issues.filter fun i => i.type = t).length

/-- Conversion of one violation of a rule into an `Issue`, as done in the
rule loop of `analyzeCodeSecurity` / `analyzeCodeAccessibility`; the
`category` differs between the two analyzers. -/
def violationToIssue (category : String) (rule : Rule) (v : Violation) :
    Issue :=
  { type := issueTypeOf rule.severity
    category := category
    message := "[" ++ rule.id ++ "] " ++ rule.title ++ ": " ++ v.message
    line := some v.line
    code := rule.id
    fix := rule.recommendation }

/-- The rule loop of `analyzeCodeSecurity`: disabled rules are skipped,
each enabled rule is evaluated with `checkRule`, and an exception from
`checkRule` propagates (there is no `try` in `analyzeCodeSecurity`). -/
def securityRuleResults (eng : RegexEngine) (code filePath : String) :
    List Rule → Except Unit (List (Rule × List Violation))
  | [] => Except.ok []
  | r :: rs =>
    if r.enabled = false then securityRuleResults eng code filePath rs
    else
      match checkRuleSec eng code filePath r with
      | Except.error e => Except.error e
      | Except.ok vs =>
        match securityRuleResults eng code filePath rs with
        | Except.error e => Except.error e
        | Except.ok rest => Except.ok ((r, vs) :: rest)

/-- The issues list built from the rule results, in rule order then
violation order. -/
def issuesOf (category : String) (rrs : List (Rule × List Violation)) :
    List Issue :=
  rrs.flatMap fun rv => rv.2.map (violationToIssue category rv.1)

/-- The security score computed at the end of `analyzeCodeSecurity`
(`src/core/securityAnalyzer.ts` lines 88-91):
`Math.max(0, 100 - criticalCount * 20 - warningCount * 10)` where
`criticalCount` counts `'error'` issues and `warningCount` counts
`'warning'` issues. -/
def securityScoreOf (issues : List Issue) : Int :=
  max 0 (100 - 20 * (countType IssueType.error issues : Int)
    - 10 * (countType IssueType.warning issues : Int))

/-- The code-quality score computed in `CodeAnalyzer.analyzeCode`
(`src/core/analyzer.ts` lines 73-76):
`Math.max(0, 100 - errorCount * 10 - warningCount * 5)`. -/
def codeQualityScoreOf (issues : List Issue) : Int :=
  max 0 (100 - 10 * (countType IssueType.error issues : Int)
    - 5 * (countType IssueType.warning issues : Int))

/-- `generateSecuritySummary` of `SecurityAnalyzer`. -/
def generateSecuritySummary (issues : List Issue) (score : Int) : String :=
  let critical := countType IssueType.error issues
  let warnings := countType IssueType.warning issues
  let info := countType IssueType.info issues
  if issues.length = 0 then
    "✓ No security issues found (Score: " ++ toString score ++ "/100)"
  else
    "⚠ Security issues found: " ++ toString critical ++ " critical, "
      ++ toString warnings ++ " warnings, " ++ toString info
      ++ " info (Score: " ++ toString score ++ "/100)"

/-- The result record of `analyzeCodeSecurity` (`SecurityCheckResult`). -/
structure SecurityCheckResult where
  file : String
  framework : String
  issues : List Issue
  ruleResults : List (Rule × List Violation)
  securityScore : Int
  totalViolations : Nat
  summary : String
  deriving DecidableEq

/-- `SecurityAnalyzer.analyzeCodeSecurity`. The framework-dependent rule
reloading of lines 59-62 is modelled by the `rules` parameter: the rule
list in effect for the analysed file; `framework` is the corresponding
framework name. An exception from `checkRule` (invalid `excludePatterns`
regex) is not caught anywhere in this function and rejects the whole
call. -/
def analyzeCodeSecurity (eng : RegexEngine) (rules : List Rule)
    (framework : String) (code filePath : String) :
    Except Unit SecurityCheckResult :=
  match securityRuleResults eng code filePath rules with
  | Except.error e => Except.error e
  | Except.ok rrs =>
    let issues := issuesOf "security" rrs
    let score := securityScoreOf issues
    Except.ok
      { file := filePath
        framework := framework
        issues := issues
        ruleResults := rrs
        securityScore := score
        totalViolations := issues.length
        summary := generateSecuritySummary issues score }

/-- The result record of `analyzeCodeAccessibility`
(`AccessibilityCheckResult`). -/
structure AccessibilityCheckResult where
  file : String
  issues : List Issue
  totalViolations : Nat
  summary : String
  deriving DecidableEq

/-- The rule loop of `analyzeCodeAccessibility`; total because
`AccessibilityAnalyzer.checkRule` is. -/
def a11yRuleResults (eng : RegexEngine) (code filePath : String) :
    List Rule → List (Rule × List Violation)
  | [] => []
  | r :: rs =>
    if r.enabled = false then a11yRuleResults eng code filePath rs
    else (r, checkRuleA11y eng code filePath r)
      :: a11yRuleResults eng code filePath rs

/-- `generateAccessibilitySummary` of `AccessibilityAnalyzer`. -/
def generateAccessibilitySummary (rules : List Rule) (issues : List Issue)
    (rrs : List (Rule × List Violation)) : String :=
  let critical := countType IssueType.error issues
  let warnings := countType IssueType.warning issues
  let info := countType IssueType.info issues
  let totalRules := (rules.filter fun r => r.enabled).length
  let triggeredRules := (rrs.filter fun rv => !rv.2.isEmpty).length
  if issues.length = 0 then
    "✓ No accessibility issues found (" ++ toString totalRules
      ++ " rules checked)"
  else
    "⚠ Accessibility issues found: " ++ toString critical ++ " critical, "
      ++ toString warnings ++ " warnings, " ++ toString info ++ " info ("
      ++ toString triggeredRules ++ "/" ++ toString totalRules
      ++ " rules triggered)"

/-- `AccessibilityAnalyzer.analyzeCodeAccessibility`; `rules` models the
loaded in-memory rule list. -/
def analyzeCodeAccessibility (eng : RegexEngine) (rules : List Rule)
    (code filePath : String) : AccessibilityCheckResult :=
  let rrs := a11yRuleResults eng code filePath rules
  let issues := issuesOf "accessibility" rrs
  { file := filePath
    issues := issues
    totalViolations := issues.length
    summary := generateAccessibilitySummary rules issues rrs }

/-- A file-system tree as seen through `fs.readdirSync(dir,
{ withFileTypes: true })`. A file with `content = none` models a file
whose `readFileSync` throws. Directory listing itself is assumed to
succeed. -/
inductive FsEntry
  | file (name : String) (content : Option String) : FsEntry
  | dir (name : String) (entries : List FsEntry) : FsEntry

/-- The directory names skipped by the `scan` closures of
`analyzeProjectSecurity` and `analyzeProjectAccessibility`:
`['node_modules', '.git', 'build', 'dist', '.next', '.env.local']`. -/
def analyzerSkipDirs : List String :=
  ["node_modules", ".git", "build", "dist", ".next", ".env.local"]

/-- The file-name filter of those `scan` closures:
`/\.(tsx|jsx|ts|js)$/.test(entry.name)`. -/
def isSourceFileName (name : String) : Bool :=
  strEndsWith name ".tsx" || strEndsWith name ".jsx"
    || strEndsWith name ".ts" || strEndsWith name ".js"

/-- The test-file filter shared by all scanners:
`/\.(test|spec)\.(ts|tsx|js|jsx)$/.test(entry.name)`. -/
def isTestFileName (name : String) : Bool :=
  strEndsWith name ".test.ts" || strEndsWith name ".test.tsx"
    || strEndsWith name ".test.js" || strEndsWith name ".test.jsx"
    || strEndsWith name ".spec.ts" || strEndsWith name ".spec.tsx"
    || strEndsWith name ".spec.js" || strEndsWith name ".spec.jsx"

mutual

/-- One entry step of the `scan` closure shared (verbatim, up to a `try`
around `readdirSync` that cannot fail in this model) by
`analyzeProjectSecurity` and `analyzeProjectAccessibility`: directories
in `analyzerSkipDirs` are not entered, files are kept when they match the
source-extension regex and are not test files. Paths are joined with
`/`. The collected pair carries the file content so that the later
`readFileSync` can be modelled. -/
def analyzerScanEntry (dirPath : String) :
    FsEntry → List (String × Option String)
  | FsEntry.dir n es =>
    if n ∈ analyzerSkipDirs then []
    else analyzerScanList (dirPath ++ "/" ++ n) es
  | FsEntry.file n c =>
    if isSourceFileName n && !isTestFileName n then [(dirPath ++ "/" ++ n, c)]
    else []

/-- The `for (const entry of entries)` loop of the analyzer `scan`
closures. -/
def analyzerScanList (dirPath : String) :
    List FsEntry → List (String × Option String)
  | [] => []
  | e :: es => analyzerScanEntry dirPath e ++ analyzerScanList dirPath es

end

/-- The result record of `analyzeProjectSecurity`. -/
structure SecurityProjectResult where
  totalFilesScanned : Nat
  filesWithIssues : Nat
  totalViolations : Nat
  criticalViolations : Nat
  highViolations : Nat
  results : List SecurityCheckResult
  summary : String

/-- The per-file loop of `analyzeProjectSecurity`: the whole body (read
plus analysis) is wrapped in a `try`, so a file whose read throws
(`content = none`) or whose analysis throws is skipped and the loop
continues; only files with at least one issue are kept. -/
def securityProjectLoop (eng : RegexEngine) (rules : List Rule)
    (fw : String) : List (String × Option String) → List SecurityCheckResult
  | [] => []
  | (_, none) :: rest => securityProjectLoop eng rules fw rest
  | (p, some code) :: rest =>
    match analyzeCodeSecurity eng rules fw code p with
    | Except.error _ => securityProjectLoop eng rules fw rest
    | Except.ok r =>
      if r.issues.length > 0 then r :: securityProjectLoop eng rules fw rest
      else securityProjectLoop eng rules fw rest

/-- `SecurityAnalyzer.analyzeProjectSecurity`: collects the files, runs
the per-file loop, and builds the report; `results` is truncated with
`slice(0, 50)` while every counter (including the file count used in the
summary) is computed from the untruncated array. -/
def analyzeProjectSecurity (eng : RegexEngine) (rules : List Rule)
    (fw : String) (rootPath : String) (tree : List FsEntry) :
    SecurityProjectResult :=
  let files := analyzerScanList rootPath tree
  let kept := securityProjectLoop eng rules fw files
  let totalViolations := (kept.map fun r => r.issues.length).sum
  let criticalViolations :=
    (kept.map fun r => countType IssueType.error r.issues).sum
  let highViolations :=
    (kept.map fun r => countType IssueType.warning r.issues).sum
  { totalFilesScanned := files.length
    filesWithIssues := kept.length
    totalViolations := totalViolations
    criticalViolations := criticalViolations
    highViolations := highViolations
    results := kept.take 50
    summary := "Found " ++ toString totalViolations
      ++ " security violation(s) across " ++ toString kept.length
      ++ " file(s). Critical: " ++ toString criticalViolations
      ++ ", High: " ++ toString highViolations }

/-- The result record of `analyzeProjectAccessibility`. -/
structure AccessibilityProjectResult where
  totalFilesScanned : Nat
  filesWithIssues : Nat
  totalViolations : Nat
  results : List AccessibilityCheckResult
  summary : String

/-- The per-file loop of `analyzeProjectAccessibility`
(`src/core/accessibilityAnalyzer.ts` lines 209-217): unlike the security
version there is NO `try` around the body, so a file whose
`readFileSync` throws rejects the whole scan. -/
def a11yProjectLoop (eng : RegexEngine) (rules : List Rule) :
    List (String × Option String) → Except Unit (List AccessibilityCheckResult)
  | [] => Except.ok []
  | (_, none) :: _ => Except.error ()
  | (p, some code) :: rest =>
    let r := analyzeCodeAccessibility eng rules code p
    match a11yProjectLoop eng rules rest with
    | Except.error e => Except.error e
    | Except.ok tail =>
      Except.ok (if r.issues.length > 0 then r :: tail else tail)

/-- `AccessibilityAnalyzer.analyzeProjectAccessibility`. -/
def analyzeProjectAccessibility (eng : RegexEngine) (rules : List Rule)
    (rootPath : String) (tree : List FsEntry) :
    Except Unit AccessibilityProjectResult :=
  let files := analyzerScanList rootPath tree
  match a11yProjectLoop eng rules files with
  | Except.error e => Except.error e
  | Except.ok kept =>
    let totalViolations := (kept.map fun r => r.issues.length).sum
    Except.ok
      { totalFilesScanned := files.length
        filesWithIssues := kept.length
        totalViolations := totalViolations
        results := kept.take 50
        summary := "Found " ++ toString totalViolations
          ++ " accessibility issue(s) across " ++ toString kept.length
          ++ " file(s)" }

/-- The `excludedDirs` set of `getAllSourceFiles` (`src/index.ts` lines
591-605). -/
def excludedDirs : List String :=
  ["node_modules", "build", "dist", ".next", ".git", "coverage",
   ".history", ".vscode", ".cache", ".turbo", ".nuxt", ".output", "out"]

/-- The characters after the last `.` of a name, if any. -/
def afterLastDot : List Char → Option (List Char)
  | [] => none
  | c :: cs =>
    match afterLastDot cs with
    | some e => some e
    | none => if c = '.' then some cs else none

/-- `path.extname` on a base name: the extension starts at the last `.`,
except that a leading `.` (hidden file) does not start an extension. -/
def extname (name : String) : String :=
  match name.toList with
  | [] => ""
  | _ :: rest =>
    match afterLastDot rest with
    | some e => String.mk ('.' :: e)
    | none => ""

mutual

/-- One entry step of the `scan` closure of `getAllSourceFiles`
(`src/index.ts` lines 607-632): directories in `excludedDirs` are not
entered; files are kept when `path.extname` is one of `.ts .tsx .js
.jsx` and (`includeTests` or not a test file). -/
def gasfEntry (includeTests : Bool) (dirPath : String) :
    FsEntry → List String
  | FsEntry.dir n es =>
    if n ∈ excludedDirs then []
    else gasfList includeTests (dirPath ++ "/" ++ n) es
  | FsEntry.file n _ =>
    if extname n ∈ ([".ts", ".tsx", ".js", ".jsx"] : List String)
        ∧ (includeTests || !isTestFileName n) = true then
      [dirPath ++ "/" ++ n]
    else []

/-- The entries loop of the `scan` closure of `getAllSourceFiles`. -/
def gasfList (includeTests : Bool) (dirPath : String) :
    List FsEntry → List String
  | [] => []
  | e :: es =>
    gasfEntry includeTests dirPath e ++ gasfList includeTests dirPath es

end

/-- `getAllSourceFiles(dir, includeTests)` over the file-system model. -/
def getAllSourceFiles (dirPath : String) (tree : List FsEntry)
    (includeTests : Bool := false) : List String :=
  gasfList includeTests dirPath tree

/-- The in-memory state of a `SecurityAnalyzer` relevant to rule
management, together with the persisted rules file it was loaded from:
`rules` is `this.rules`, `store` is the content of the JSON config file
on disk. -/
structure AnalyzerState where
  rules : List Rule
  store : List Rule
  deriving DecidableEq

/-- Reading the rules config file afresh (`loadSecurityRules` reads the
JSON file and takes its rules array). -/
def loadRulesFromStore (store : List Rule) : List Rule := store

/-- Mutation of the first rule found by
`this.rules.find(r => r.id === ruleId)`: JavaScript `find` returns the
first match and the assignment `rule.enabled = enabled` updates that
object in place. -/
def setEnabledFirst (ruleId : String) (enabled : Bool) :
    List Rule → List Rule
  | [] => []
  | r :: rs =>
    if r.id = ruleId then { r with enabled := enabled } :: rs
    else r :: setEnabledFirst ruleId enabled rs

/-- `SecurityAnalyzer.updateRuleStatus` (`src/core/securityAnalyzer.ts`
lines 260-267): updates the in-memory rule and returns whether the id was
found. Nothing is written to disk, so `store` is carried through
unchanged. -/
def updateRuleStatus (s : AnalyzerState) (ruleId : String) (enabled : Bool) :
    Bool × AnalyzerState :=
  if s.rules.any fun r => r.id = ruleId then
    (true, { s with rules := setEnabledFirst ruleId enabled s.rules })
  else (false, s)

/-- Framework kind, from `src/common/project-detector.ts`. -/
inductive FrameworkType
  | nextjs
  | react
  | unknown
  deriving DecidableEq

/-- Bundler kind, from `src/common/project-detector.ts`. -/
inductive Bundler
  | vite
  | webpack
  | cra
  | other
  deriving DecidableEq

/-- `ProjectInfo` of `src/common/project-detector.ts`. -/
structure ProjectInfo where
  framework : FrameworkType
  hasAppRouter : Bool
  hasPagesRouter : Bool
  reactVersion : Option String := none
  nextVersion : Option String := none
  bundler : Bundler := Bundler.other
  usesTypeScript : Bool := false
  deriving DecidableEq

/-- The mutable singleton state of `ProjectDetector`:
`cachedProjectInfo`. -/
structure DetectorState where
  cachedProjectInfo : Option ProjectInfo
  deriving DecidableEq

/-- `ProjectDetector.detectFramework(projectRoot?)` with the state passed
explicitly. `derive` models the manifest-and-directory probing of lines
40-103 (out-of-scope disk I/O) as a function of the resolved root;
`cwd` models `process.cwd()`. If the cache is populated it is returned
unchanged and the argument is never looked at; otherwise the profile is
derived from `projectRoot || process.cwd()` and cached. -/
def detectFramework (derive : String → ProjectInfo) (cwd : String)
    (s : DetectorState) (projectRoot : Option String) :
    ProjectInfo × DetectorState :=
  match s.cachedProjectInfo with
  | some info => (info, s)
  | none =>
    let root := projectRoot.getD cwd
    let info := derive root
    (info, { cachedProjectInfo := some info })

/-- `ProjectDetector.clearCache`. -/
def clearCache (_ : DetectorState) : DetectorState :=
  { cachedProjectInfo := none }

/-- Modelled from the spec: the file-level score formula claimed in §3 of
the specification, `max(0, 100 − 20×criticalCount − 10×highCount −
5×mediumCount)`, where the counts are violations of critical, high and
medium severity. Stated here only to be compared with the score the code
actually computes. -/
def specClaimedScore (criticalCount highCount mediumCount : Nat) : Int :=
  max 0 (100 - 20 * (criticalCount : Int) - 10 * (highCount : Int)
    - 5 * (mediumCount : Int))

/-- The number of violations of a given severity in a rule-results list
(each entry pairs a rule with its violations). -/
def severityViolationCount (sev : Severity)
    (rrs : List (Rule × List Violation)) : Nat :=
  ((rrs.filter fun rv => rv.1.severity = sev).map fun rv => rv.2.length).sum

/-- Modelled from the spec: the conjunctive whole-text gate the claims
describe for a raw match — `requirePatterns` empty or at least one
matching somewhere in the text, and `requireAbsence` empty or none
matching anywhere in the text. Stated to be compared with the gating the
code performs. -/
def wholeTextGate (eng : RegexEngine) (code : String) (d : Detection) :
    Bool :=
  (d.requirePatterns.isEmpty || d.requirePatterns.any fun p => eng.test p code)
    && (d.requireAbsence.isEmpty
      || !(d.requireAbsence.any fun p => eng.test p code))

/-- The violations a rule would produce if every raw pattern match were
kept: one per match offset of each pattern, in pattern order then match
order. -/
def rawMatches (eng : RegexEngine) (code : String) (rule : Rule) :
    List Violation :=
  rule.detection.patterns.flatMap fun p =>
    (eng.execAll p code).map fun i =>
      { line := lineOfIndex code i, message := rule.title, code := rule.id }

/-- Whether a collected file survives the per-file loop of
`analyzeProjectSecurity`: readable, analysed without an exception, and
carrying at least one issue. -/
def keepsFile (eng : RegexEngine) (rules : List Rule) (fw : String)
    (f : String × Option String) : Bool :=
  match f.2 with
  | none => false
  | some code =>
    match analyzeCodeSecurity eng rules fw code f.1 with
    | Except.error _ => false
    | Except.ok r => decide (r.issues.length > 0)

/-- Whether a collected file survives the per-file loop of
`analyzeProjectAccessibility`: readable and carrying at least one issue
(accessibility analysis itself is total). -/
def a11yKeepsFile (eng : RegexEngine) (rules : List Rule)
    (f : String × Option String) : Bool :=
  match f.2 with
  | none => false
  | some code =>
    decide ((analyzeCodeAccessibility eng rules code f.1).issues.length > 0)

/-- The results the accessibility per-file loop produces when every file
is readable: the per-file results with at least one issue, in traversal
order. -/
def a11yKept (eng : RegexEngine) (rules : List Rule) :
    List (String × Option String) → List AccessibilityCheckResult
  | [] => []
  | (_, none) :: rest => a11yKept eng rules rest
  | (p, some code) :: rest =>
    let r := analyzeCodeAccessibility eng rules code p
    if r.issues.length > 0 then r :: a11yKept eng rules rest
    else a11yKept eng rules rest

/-- A concrete engine for witnesses: every pattern is valid, every
pattern matches once at offset 0 and every presence test succeeds. -/
def engAll : RegexEngine :=
  { valid := fun _ => true
    execAll := fun _ _ => [0]
    test := fun _ _ => true
    globTest := fun _ _ => true }

/-- Whether the first character list occurs inside the second as a
contiguous run. -/
def occursIn (p : List Char) : List Char → Bool
  | [] => p.isEmpty
  | c :: rest => p.isPrefixOf (c :: rest) || occursIn p rest

/-- A concrete engine for witnesses: literal-substring semantics, where a
pattern matches a text exactly when it occurs in it as a character
substring; the pattern `"("` is invalid. -/
def engSub : RegexEngine :=
  { valid := fun p => decide (p ≠ "(")
    execAll := fun p s => if occursIn p.toList s.toList then [0] else []
    test := fun p s => occursIn p.toList s.toList
    globTest := fun _ _ => true }

/-- A concrete enabled critical rule with a single detection pattern. -/
def ruleCrit : Rule :=
  { id := "no-eval", title := "Avoid eval", scope := Scope.code,
    severity := Severity.critical, enabled := true,
    detection := { patterns := ["eval"] },
    recommendation := "do not use eval" }

/-- A concrete enabled medium-severity rule with a single detection
pattern. -/
def ruleMed : Rule :=
  { id := "med-rule", title := "Medium issue", scope := Scope.code,
    severity := Severity.medium, enabled := true,
    detection := { patterns := ["eval"] },
    recommendation := "fix it" }

/-- A concrete rule whose `excludePatterns` contains the syntactically
invalid regex `"("`. -/
def ruleBadExclude : Rule :=
  { id := "bad-exclude", title := "Bad exclude", scope := Scope.code,
    severity := Severity.critical, enabled := true,
    detection := { patterns := ["eval"], excludePatterns := ["("] },
    recommendation := "fix it" }

/-- A project tree of 51 identical source files, each containing a match
for `ruleCrit`. -/
def tree51 : List FsEntry :=
  List.replicate 51 (FsEntry.file "a.ts" (some "eval(x)"))

/-- A concrete rule using all three conditional lists, for witnesses. -/
def ruleGated : Rule :=
  { id := "gated", title := "Gated rule", scope := Scope.code,
    severity := Severity.high, enabled := true,
    detection :=
      { patterns := ["eval"]
        requirePatterns := ["dangerous"]
        requireAbsence := ["sanitize"]
        excludePatterns := ["// safe"] },
    recommendation := "fix it" }

/-- A concrete rule with a matching exclude pattern, for witnesses. -/
def ruleExcl : Rule :=
  { id := "excl", title := "Excluded rule", scope := Scope.code,
    severity := Severity.critical, enabled := true,
    detection := { patterns := ["eval"], excludePatterns := ["safe"] },
    recommendation := "fix it" }

/-- A concrete profile derivation for witnesses, giving different
profiles to different roots. -/
def demoDerive (root : String) : ProjectInfo :=
  { framework :=
      if root = "A" then FrameworkType.react else FrameworkType.nextjs
    hasAppRouter := false
    hasPagesRouter := false }

/-- A concrete analyzer state for witnesses: one enabled rule, loaded
from a store holding the same rule. -/
def s8 : AnalyzerState :=
  { rules := [ruleCrit], store := [ruleCrit] }

/-- A project tree with one unreadable file between two readable ones,
for witnesses. -/
def treeBadRead : List FsEntry :=
  [FsEntry.file "a.ts" (some "eval(x)"),
   FsEntry.file "b.ts" none,
   FsEntry.file "c.ts" (some "eval(y)")]

/-- The analysed result of `ruleCrit` on `"eval(x)"`, extracted for the
C1 witness. -/
def secDemoResult : SecurityCheckResult :=
  (analyzeCodeSecurity engAll [ruleCrit] "nextjs" "eval(x)" "f.ts").toOption.getD
    { file := "", framework := "", issues := [], ruleResults := [],
      securityScore := 0, totalViolations := 0, summary := "" }

/-! ### Helper lemmas -/

lemma jsSome_allValid (eng : RegexEngine) (code : String) (l : List String)
    (h : ∀ p ∈ l, eng.valid p = true) :
    jsSome (securityTestOne eng code) l
      = Except.ok (l.any fun p => eng.test p code) := by
  induction l with
  | nil => rfl
  | cons p ps ih =>
    have hp : eng.valid p = true := h p (by simp)
    have ihh := ih fun q hq => h q (by simp [hq])
    simp only [jsSome, securityTestOne, hp, if_pos rfl, List.any_cons]
    cases ht : eng.test p code
    · simp [ihh]
    · simp

lemma any_a11yTestOne (eng : RegexEngine) (code : String) (l : List String)
    (h : ∀ p ∈ l, eng.valid p = true) :
    l.any (a11yTestOne eng code) = l.any fun p => eng.test p code := by
  induction l with
  | nil => rfl
  | cons p ps ih =>
    have hp : eng.valid p = true := h p (by simp)
    have ihh := ih fun q hq => h q (by simp [hq])
    simp [List.any_cons, a11yTestOne, hp, ihh]

lemma securityAbsenceCheck_allValid (eng : RegexEngine) (code : String)
    (d : Detection) (h : ∀ p ∈ d.requireAbsence, eng.valid p = true) :
    securityAbsenceCheck eng code d
      = Except.ok (d.requireAbsence.isEmpty
        || !(d.requireAbsence.any fun p => eng.test p code)) := by
  unfold securityAbsenceCheck
  rw [jsSome_allValid eng code d.requireAbsence h]
  cases he : d.requireAbsence.isEmpty
  · cases ha : d.requireAbsence.any fun p => eng.test p code <;> simp [he, ha]
  · simp [he]

lemma securityMatchSurvives_allValid (eng : RegexEngine) (code : String)
    (d : Detection) (hreq : ∀ p ∈ d.requirePatterns, eng.valid p = true)
    (habs : ∀ p ∈ d.requireAbsence, eng.valid p = true) :
    securityMatchSurvives eng code d
      = Except.ok (wholeTextGate eng code d) := by
  unfold securityMatchSurvives wholeTextGate
  rw [jsSome_allValid eng code d.requirePatterns hreq]
  cases he : d.requirePatterns.isEmpty
  · cases ha : d.requirePatterns.any fun p => eng.test p code
    · simp [he, ha]
    · simp [he, ha, securityAbsenceCheck_allValid eng code d habs]
  · simp [he, securityAbsenceCheck_allValid eng code d habs]

lemma securityMatchLoop_of_survives (eng : RegexEngine) (code : String)
    (rule : Rule) (b : Bool)
    (hs : securityMatchSurvives eng code rule.detection = Except.ok b)
    (idxs : List Nat) :
    securityMatchLoop eng code rule idxs
      = if b then
          idxs.map fun i =>
            { line := lineOfIndex code i, message := rule.title,
              code := rule.id }
        else [] := by
  induction idxs with
  | nil => cases b <;> simp [securityMatchLoop]
  | cons i rest ih =>
    unfold securityMatchLoop
    rw [hs]
    cases b <;> simp [ih]

lemma securityPatternLoop_of_survives (eng : RegexEngine) (code : String)
    (rule : Rule) (b : Bool)
    (hs : securityMatchSurvives eng code rule.detection = Except.ok b)
    (ps : List String) (hpat : ∀ p ∈ ps, eng.valid p = true) :
    securityPatternLoop eng code rule ps
      = if b then
          ps.flatMap fun p =>
            (eng.execAll p code).map fun i =>
              { line := lineOfIndex code i, message := rule.title,
                code := rule.id }
        else [] := by
  induction ps with
  | nil => cases b <;> simp [securityPatternLoop]
  | cons p rest ih =>
    have hp : eng.valid p = true := hpat p (by simp)
    have ihh := ih fun q hq => hpat q (by simp [hq])
    unfold securityPatternLoop securityScanPattern
    rw [securityMatchLoop_of_survives eng code rule b hs]
    cases b <;> simp [hp, ihh]

lemma a11yMatchSurvives_allValid (eng : RegexEngine) (code : String)
    (d : Detection) (hreq : ∀ p ∈ d.requirePatterns, eng.valid p = true)
    (habs : ∀ p ∈ d.requireAbsence, eng.valid p = true) :
    a11yMatchSurvives eng code d = wholeTextGate eng code d := by
  unfold a11yMatchSurvives wholeTextGate
  rw [any_a11yTestOne eng code d.requirePatterns hreq,
    any_a11yTestOne eng code d.requireAbsence habs]
  cases h1 : d.requirePatterns.isEmpty
    <;> cases h2 : d.requirePatterns.any fun p => eng.test p code
    <;> cases h3 : d.requireAbsence.isEmpty
    <;> cases h4 : d.requireAbsence.any fun p => eng.test p code
    <;> simp [h1, h2, h3, h4]

lemma a11yMatchLoop_eq (eng : RegexEngine) (code : String) (rule : Rule)
    (idxs : List Nat) :
    a11yMatchLoop eng code rule idxs
      = if a11yMatchSurvives eng code rule.detection then
          idxs.map fun i =>
            { line := lineOfIndex code i, message := rule.title,
              code := rule.id }
        else [] := by
  induction idxs with
  | nil => cases a11yMatchSurvives eng code rule.detection
      <;> simp [a11yMatchLoop]
  | cons i rest ih =>
    unfold a11yMatchLoop
    cases hs : a11yMatchSurvives eng code rule.detection <;> simp [hs, ih]

lemma a11yPatternLoop_eq (eng : RegexEngine) (code : String) (rule : Rule)
    (ps : List String) (hpat : ∀ p ∈ ps, eng.valid p = true) :
    a11yPatternLoop eng code rule ps
      = if a11yMatchSurvives eng code rule.detection then
          ps.flatMap fun p =>
            (eng.execAll p code).map fun i =>
              { line := lineOfIndex code i, message := rule.title,
                code := rule.id }
        else [] := by
  induction ps with
  | nil => cases a11yMatchSurvives eng code rule.detection
      <;> simp [a11yPatternLoop]
  | cons p rest ih =>
    have hp : eng.valid p = true := hpat p (by simp)
    have ihh := ih fun q hq => hpat q (by simp [hq])
    unfold a11yPatternLoop a11yScanPattern
    rw [a11yMatchLoop_eq, ihh]
    cases hs : a11yMatchSurvives eng code rule.detection <;> simp [hs, hp]

lemma setEnabledFirst_mem (ruleId : String) (b : Bool) (l : List Rule)
    (h : ∃ r ∈ l, r.id = ruleId) :
    ∃ r2 ∈ setEnabledFirst ruleId b l, r2.id = ruleId ∧ r2.enabled = b := by
  induction l with
  | nil => simp at h
  | cons r rs ih =>
    by_cases hr : r.id = ruleId
    · refine ⟨{ r with enabled := b }, ?_, hr, rfl⟩
      simp [setEnabledFirst, hr]
    · obtain ⟨r0, hr0, hid⟩ := h
      rcases List.mem_cons.mp hr0 with h0 | h0
      · exact absurd (h0 ▸ hid) hr
      · obtain ⟨r2, hm, h2⟩ := ih ⟨r0, h0, hid⟩
        exact ⟨r2, by simp [setEnabledFirst, hr, hm], h2⟩

lemma securityProjectLoop_append (eng : RegexEngine) (rules : List Rule)
    (fw : String) (xs ys : List (String × Option String)) :
    securityProjectLoop eng rules fw (xs ++ ys)
      = securityProjectLoop eng rules fw xs
        ++ securityProjectLoop eng rules fw ys := by
  induction xs with
  | nil => simp [securityProjectLoop]
  | cons f rest ih =>
    obtain ⟨p, oc⟩ := f
    cases oc with
    | none => simpa [securityProjectLoop] using ih
    | some code =>
      cases hA : analyzeCodeSecurity eng rules fw code p with
      | error e => simp [securityProjectLoop, hA, ih]
      | ok r =>
        by_cases hi : r.issues.length > 0
          <;> simp [securityProjectLoop, hA, hi, ih]

lemma securityProjectLoop_length_all (eng : RegexEngine) (rules : List Rule)
    (fw : String) (files : List (String × Option String))
    (hall : files.all (keepsFile eng rules fw) = true) :
    (securityProjectLoop eng rules fw files).length = files.length := by
  induction files with
  | nil => rfl
  | cons f rest ih =>
    rw [List.all_cons, Bool.and_eq_true] at hall
    obtain ⟨h1, h2⟩ := hall
    obtain ⟨p, oc⟩ := f
    cases oc with
    | none => simp [keepsFile] at h1
    | some code =>
      cases hA : analyzeCodeSecurity eng rules fw code p with
      | error e => simp [keepsFile, hA] at h1
      | ok r =>
        have hgt : r.issues.length > 0 := by
          simpa [keepsFile, hA] using h1
        simp [securityProjectLoop, hA, hgt, ih h2]

lemma a11yProjectLoop_ok (eng : RegexEngine) (rules : List Rule)
    (files : List (String × Option String))
    (hall : files.all (a11yKeepsFile eng rules) = true) :
    a11yProjectLoop eng rules files
      = Except.ok (a11yKept eng rules files) := by
  induction files with
  | nil => rfl
  | cons f rest ih =>
    rw [List.all_cons, Bool.and_eq_true] at hall
    obtain ⟨h1, h2⟩ := hall
    obtain ⟨p, oc⟩ := f
    cases oc with
    | none => simp [a11yKeepsFile] at h1
    | some code => simp [a11yProjectLoop, a11yKept, ih h2]

lemma a11yKept_length_all (eng : RegexEngine) (rules : List Rule)
    (files : List (String × Option String))
    (hall : files.all (a11yKeepsFile eng rules) = true) :
    (a11yKept eng rules files).length = files.length := by
  induction files with
  | nil => rfl
  | cons f rest ih =>
    rw [List.all_cons, Bool.and_eq_true] at hall
    obtain ⟨h1, h2⟩ := hall
    obtain ⟨p, oc⟩ := f
    cases oc with
    | none => simp [a11yKeepsFile] at h1
    | some code =>
      have hgt : (analyzeCodeAccessibility eng rules code p).issues.length
          > 0 := by
        simpa [a11yKeepsFile] using h1
      simp [a11yKept, hgt, ih h2]

lemma length_filter_type_map (cat : String) (rule : Rule) (t : IssueType)
    (vs : List Violation) :
    ((vs.map (violationToIssue cat rule)).filter fun i => i.type = t).length
      = if issueTypeOf rule.severity = t then vs.length else 0 := by
  induction vs with
  | nil => by_cases h : issueTypeOf rule.severity = t <;> simp [h]
  | cons v rest ih =>
    by_cases h : issueTypeOf rule.severity = t
      <;> simp [List.filter_cons, violationToIssue, h, ih]

lemma countType_issuesOf (cat : String) (t : IssueType)
    (rrs : List (Rule × List Violation)) :
    countType t (issuesOf cat rrs)
      = ((rrs.map fun rv =>
          if issueTypeOf rv.1.severity = t then rv.2.length else 0)).sum := by
  induction rrs with
  | nil => rfl
  | cons rv rest ih =>
    simp only [countType, issuesOf, List.flatMap_cons, List.filter_append,
      List.length_append, List.map_cons, List.sum_cons] at ih ⊢
    rw [length_filter_type_map, ih]

lemma sum_if_type_eq_severity (t : IssueType) (sev : Severity)
    (hsev : ∀ s : Severity, issueTypeOf s = t ↔ s = sev)
    (rrs : List (Rule × List Violation)) :
    ((rrs.map fun rv =>
        if issueTypeOf rv.1.severity = t then rv.2.length else 0)).sum
      = severityViolationCount sev rrs := by
  induction rrs with
  | nil => rfl
  | cons rv rest ih =>
    by_cases h : rv.1.severity = sev
    · have ht : issueTypeOf rv.1.severity = t := (hsev _).mpr h
      simp only [severityViolationCount] at ih ⊢
      simp [List.filter_cons, h, ht, ih]
      exact fun hc => absurd (h ▸ ht) hc
    · have hne : ¬(issueTypeOf rv.1.severity = t) := fun hc =>
        h ((hsev _).mp hc)
      simp only [severityViolationCount] at ih ⊢
      simp [List.filter_cons, h, hne, ih]

lemma analyzeCodeSecurity_ok (eng : RegexEngine) (rules : List Rule)
    (fw code filePath : String) (r : SecurityCheckResult)
    (h : analyzeCodeSecurity eng rules fw code filePath = Except.ok r) :
    r.issues = issuesOf "security" r.ruleResults
    ∧ r.securityScore = securityScoreOf r.issues
    ∧ r.totalViolations = r.issues.length := by
  unfold analyzeCodeSecurity at h
  cases hm : securityRuleResults eng code filePath rules with
  | error e => rw [hm] at h; exact absurd h (by simp)
  | ok rrs =>
    rw [hm] at h
    have hr := Except.ok.inj h
    subst hr
    exact ⟨rfl, rfl, rfl⟩

lemma securityScoreOf_bounds (issues : List Issue) :
    0 ≤ securityScoreOf issues ∧ securityScoreOf issues ≤ 100 := by
  unfold securityScoreOf
  refine ⟨le_max_left 0 _, max_le (by norm_num) ?_⟩
  have h1 : (0 : Int) ≤ (countType IssueType.error issues : Int) :=
    Int.natCast_nonneg _
  have h2 : (0 : Int) ≤ (countType IssueType.warning issues : Int) :=
    Int.natCast_nonneg _
  omega

lemma codeQualityScoreOf_bounds (issues : List Issue) :
    0 ≤ codeQualityScoreOf issues ∧ codeQualityScoreOf issues ≤ 100 := by
  unfold codeQualityScoreOf
  refine ⟨le_max_left 0 _, max_le (by norm_num) ?_⟩
  have h1 : (0 : Int) ≤ (countType IssueType.error issues : Int) :=
    Int.natCast_nonneg _
  have h2 : (0 : Int) ≤ (countType IssueType.warning issues : Int) :=
    Int.natCast_nonneg _
  omega

lemma countType_le_cons (t : IssueType) (i : Issue) (issues : List Issue) :
    countType t issues ≤ countType t (i :: issues) := by
  simp only [countType, List.filter_cons]
  split
  · simp [Nat.le_succ]
  · exact le_rfl

lemma securityScoreOf_mono (i : Issue) (issues : List Issue) :
    securityScoreOf (i :: issues) ≤ securityScoreOf issues := by
  unfold securityScoreOf
  apply max_le_max le_rfl
  have h1 := countType_le_cons IssueType.error i issues
  have h2 := countType_le_cons IssueType.warning i issues
  omega

/-! ### Claim theorems -/

/-- C2: for every rule and text (with well-formed regexes, the invalid
case being claim C4), a raw pattern match becomes a violation exactly
when `requirePatterns` is empty or one of them matches somewhere in the
whole text, AND `requireAbsence` is empty or none of them matches
anywhere in the text; both checks are whole-text, and `requireAbsence`
suppresses even matches whose `requirePatterns` check succeeded. This
holds for both the security and the accessibility evaluator: the
violation list is exactly the full raw-match list when the whole-text
gate holds and empty otherwise. -/
theorem c2_whole_text_gating (eng : RegexEngine) (code filePath : String)
    (rule : Rule)
    (hscope : scopeSkip eng filePath rule = false)
    (hexv : ∀ p ∈ rule.detection.excludePatterns, eng.valid p = true)
    (hexn : ∀ p ∈ rule.detection.excludePatterns, eng.test p code = false)
    (hreq : ∀ p ∈ rule.detection.requirePatterns, eng.valid p = true)
    (habs : ∀ p ∈ rule.detection.requireAbsence, eng.valid p = true)
    (hpat : ∀ p ∈ rule.detection.patterns, eng.valid p = true) :
    checkRuleSec eng code filePath rule
      = Except.ok (if wholeTextGate eng code rule.detection
          then rawMatches eng code rule else [])
    ∧ checkRuleA11y eng code filePath rule
      = (if wholeTextGate eng code rule.detection
          then rawMatches eng code rule else []) := by
  have hanyx :
      (rule.detection.excludePatterns.any fun p => eng.test p code) = false := by
    simp only [List.any_eq_false]
    intro p hp
    simp [hexn p hp]
  constructor
  · unfold checkRuleSec
    rw [jsSome_allValid eng code rule.detection.excludePatterns hexv,
      securityPatternLoop_of_survives eng code rule
        (wholeTextGate eng code rule.detection)
        (securityMatchSurvives_allValid eng code rule.detection hreq habs)
        rule.detection.patterns hpat]
    simp [hscope, hanyx, rawMatches]
  · unfold checkRuleA11y
    rw [any_a11yTestOne eng code rule.detection.excludePatterns hexv,
      a11yPatternLoop_eq eng code rule rule.detection.patterns hpat,
      a11yMatchSurvives_allValid eng code rule.detection hreq habs]
    simp [hscope, hanyx, rawMatches]

/-- Witness for C2 at a concrete input: under the literal-substring
engine, the rule `ruleGated` fires on a text containing its pattern and
its required context and not its absence pattern. -/
theorem c2_whole_text_gating_witness :
    checkRuleSec engSub "dangerous eval(x)" "f.ts" ruleGated
      = Except.ok (if wholeTextGate engSub "dangerous eval(x)"
          ruleGated.detection
          then rawMatches engSub "dangerous eval(x)" ruleGated else [])
    ∧ checkRuleA11y engSub "dangerous eval(x)" "f.ts" ruleGated
      = (if wholeTextGate engSub "dangerous eval(x)" ruleGated.detection
          then rawMatches engSub "dangerous eval(x)" ruleGated else [])
    ∧ wholeTextGate engSub "dangerous eval(x)" ruleGated.detection = true
    ∧ rawMatches engSub "dangerous eval(x)" ruleGated
      = [{ line := 1, message := "Gated rule", code := "gated" }] := by
  have h := c2_whole_text_gating engSub "dangerous eval(x)" "f.ts" ruleGated
    (by decide) (by decide) (by decide) (by decide) (by decide) (by decide)
  exact ⟨h.1, h.2, by decide, by decide⟩

/-- C3: for every rule and text, a matching `excludePatterns` entry makes
the evaluation return zero violations, no matter how many of the rule's
patterns would otherwise match (`patterns` is universally quantified
here), in both evaluators. -/
theorem c3_exclusion_dominates (eng : RegexEngine) (code filePath : String)
    (rule : Rule)
    (hexv : ∀ p ∈ rule.detection.excludePatterns, eng.valid p = true)
    (hext : ∃ p ∈ rule.detection.excludePatterns, eng.test p code = true) :
    checkRuleSec eng code filePath rule = Except.ok []
    ∧ checkRuleA11y eng code filePath rule = [] := by
  have hany :
      (rule.detection.excludePatterns.any fun p => eng.test p code) = true := by
    simp only [List.any_eq_true]
    obtain ⟨p, hp, ht⟩ := hext
    exact ⟨p, hp, by simp [ht]⟩
  constructor
  · unfold checkRuleSec
    cases hs : scopeSkip eng filePath rule
    · rw [jsSome_allValid eng code rule.detection.excludePatterns hexv]
      simp [hany]
    · simp
  · unfold checkRuleA11y
    cases hs : scopeSkip eng filePath rule
    · rw [any_a11yTestOne eng code rule.detection.excludePatterns hexv]
      simp [hany]
    · simp

/-- Witness for C3 at a concrete input: `ruleExcl` produces no violation
on a text its pattern matches, because its exclude pattern also matches;
the raw matches are non-empty, so the exclusion really suppressed
something. -/
theorem c3_exclusion_dominates_witness :
    (checkRuleSec engSub "safe eval(x)" "f.ts" ruleExcl = Except.ok []
      ∧ checkRuleA11y engSub "safe eval(x)" "f.ts" ruleExcl = [])
    ∧ rawMatches engSub "safe eval(x)" ruleExcl ≠ [] := by
  refine ⟨c3_exclusion_dominates engSub "safe eval(x)" "f.ts" ruleExcl
    (by decide) ⟨"safe", by decide, by decide⟩, by decide⟩

/-- C5 counterexample: the claim quantifies over whole-project scans of
both analyzers, but the accessibility scan has no per-file `try`: on a
tree whose middle file is unreadable, `analyzeProjectAccessibility`
rejects, while the security scan on the same tree skips the bad file and
keeps the results of the two readable ones. -/
theorem c5_counterexample :
    analyzeProjectAccessibility engAll [ruleCrit] "" treeBadRead
      = Except.error ()
    ∧ (analyzeProjectSecurity engAll [ruleCrit] "nextjs" ""
        treeBadRead).filesWithIssues = 2
    ∧ (analyzeProjectSecurity engAll [ruleCrit] "nextjs" ""
        treeBadRead).totalFilesScanned = 3 := by
  refine ⟨rfl, by decide, by decide⟩

/-- C5 (amended): in the SECURITY whole-project scan the per-file
`try`/`catch` makes an unreadable file, or a file whose evaluation
throws, disappear from the loop without affecting any other file:
removing it from the scanned list leaves the loop's output unchanged.
(The accessibility scan does not enjoy this property, see the
counterexample.) -/
theorem c5_security_scan_skips_bad_files (eng : RegexEngine)
    (rules : List Rule) (fw : String)
    (xs ys : List (String × Option String)) (p : String) :
    securityProjectLoop eng rules fw (xs ++ (p, none) :: ys)
      = securityProjectLoop eng rules fw (xs ++ ys)
    ∧ ∀ code : String,
        analyzeCodeSecurity eng rules fw code p = Except.error () →
        securityProjectLoop eng rules fw (xs ++ (p, some code) :: ys)
          = securityProjectLoop eng rules fw (xs ++ ys) := by
  constructor
  · rw [securityProjectLoop_append, securityProjectLoop_append]
    have hskip : securityProjectLoop eng rules fw ((p, none) :: ys)
        = securityProjectLoop eng rules fw ys := rfl
    rw [hskip]
  · intro code hc
    rw [securityProjectLoop_append, securityProjectLoop_append]
    have hskip : securityProjectLoop eng rules fw ((p, some code) :: ys)
        = securityProjectLoop eng rules fw ys := by
      simp [securityProjectLoop, hc]
    rw [hskip]

/-- Witness for C5 at a concrete input: dropping the unreadable file, or
a file whose analysis throws on an invalid `excludePatterns` regex, does
not change the security loop's output. -/
theorem c5_security_scan_skips_bad_files_witness :
    securityProjectLoop engSub [ruleBadExclude] "nextjs"
        ([("a.ts", some "x")] ++ ("bad.ts", none) :: [("c.ts", some "y")])
      = securityProjectLoop engSub [ruleBadExclude] "nextjs"
        ([("a.ts", some "x")] ++ [("c.ts", some "y")])
    ∧ securityProjectLoop engSub [ruleBadExclude] "nextjs"
        ([("a.ts", some "x")] ++ ("bad.ts", some "eval(x)")
          :: [("c.ts", some "y")])
      = securityProjectLoop engSub [ruleBadExclude] "nextjs"
        ([("a.ts", some "x")] ++ [("c.ts", some "y")]) := by
  have h := c5_security_scan_skips_bad_files engSub [ruleBadExclude]
    "nextjs" [("a.ts", some "x")] [("c.ts", some "y")] "bad.ts"
  exact ⟨h.1, h.2 "eval(x)" rfl⟩

/-- C7 counterexample: the claimed denylist (the 13 names of
`excludedDirs`) is not what every project scan skips. The security and
accessibility analyzer scans enter `coverage` — a name in the claimed
list — and skip `.env.local` — a name outside it. -/
theorem c7_counterexample :
    analyzerScanList "r"
        [FsEntry.dir "coverage" [FsEntry.file "a.ts" (some "x")]]
      = [("r/coverage/a.ts", some "x")]
    ∧ "coverage" ∈ excludedDirs
    ∧ analyzerScanList "r"
        [FsEntry.dir ".env.local" [FsEntry.file "a.ts" (some "x")]]
      = []
    ∧ ".env.local" ∉ excludedDirs := by
  refine ⟨by decide, by decide, by decide, by decide⟩

/-- C7 (amended): there are two distinct denylists. `getAllSourceFiles`
skips exactly the claimed 13-name list (`excludedDirs`): a probe file in
a directory is collected exactly when the directory name is outside that
list. The analyzers' own project scans instead skip exactly the 6-name
list `analyzerSkipDirs`; the two lists differ on `coverage` (and on
`.env.local`). -/
theorem c7_denylists (inc : Bool) (p n : String) (c : Option String) :
    gasfList inc p [FsEntry.dir n [FsEntry.file "a.ts" c]]
      = (if n ∈ excludedDirs then [] else [p ++ "/" ++ n ++ "/a.ts"])
    ∧ analyzerScanList p [FsEntry.dir n [FsEntry.file "a.ts" c]]
      = (if n ∈ analyzerSkipDirs then []
          else [(p ++ "/" ++ n ++ "/a.ts", c)])
    ∧ "coverage" ∈ excludedDirs ∧ "coverage" ∉ analyzerSkipDirs
    ∧ ".env.local" ∈ analyzerSkipDirs ∧ ".env.local" ∉ excludedDirs := by
  have hext : extname "a.ts" = ".ts" := by decide
  have htest : isTestFileName "a.ts" = false := by decide
  have hsrc : isSourceFileName "a.ts" = true := by decide
  have hlit : "/" ++ "a.ts" = "/a.ts" := by decide
  refine ⟨?_, ?_, by decide, by decide, by decide, by decide⟩
  · by_cases hn : n ∈ excludedDirs
      <;> simp [gasfList, gasfEntry, hn, hext, htest, String.append_assoc,
        hlit]
  · by_cases hn : n ∈ analyzerSkipDirs
      <;> simp [analyzerScanList, analyzerScanEntry, hn, htest, hsrc,
        String.append_assoc, hlit]

/-- C8 counterexample: disabling the known rule `no-eval` rewrites only
the in-memory rule; the persisted store is untouched, so a subsequent
fresh load still observes the rule as enabled, contradicting the claim
that the update is persisted back to the source config file. -/
theorem c8_counterexample :
    (updateRuleStatus s8 "no-eval" false).1 = true
    ∧ ((updateRuleStatus s8 "no-eval" false).2.rules.map fun r =>
        r.enabled) = [false]
    ∧ ((loadRulesFromStore
        (updateRuleStatus s8 "no-eval" false).2.store).map fun r =>
        r.enabled) = [true] := by
  refine ⟨by decide, by decide, by decide⟩

/-- C8 (amended): for every known rule id the update rewrites the
enabled flag of the (first) matching in-memory rule and reports success,
and for an unknown id reports failure; but it never persists anything:
the store — and hence what a fresh load returns — is unchanged. -/
theorem c8_update_rule_status (s : AnalyzerState) (ruleId : String)
    (b : Bool) :
    (updateRuleStatus s ruleId b).2.store = s.store
    ∧ loadRulesFromStore (updateRuleStatus s ruleId b).2.store
      = loadRulesFromStore s.store
    ∧ (updateRuleStatus s ruleId b).1
      = (s.rules.any fun r => r.id = ruleId)
    ∧ ((∃ r ∈ s.rules, r.id = ruleId) →
        ∃ r2 ∈ (updateRuleStatus s ruleId b).2.rules,
          r2.id = ruleId ∧ r2.enabled = b) := by
  by_cases h : (s.rules.any fun r => r.id = ruleId) = true
  · have hu : updateRuleStatus s ruleId b
        = (true, { s with rules := setEnabledFirst ruleId b s.rules }) := by
      unfold updateRuleStatus
      rw [if_pos h]
    rw [hu]
    exact ⟨rfl, rfl, by simp [h],
      fun hex => setEnabledFirst_mem ruleId b _ hex⟩
  · have hfalse : (s.rules.any fun r => r.id = ruleId) = false := by
      simpa using h
    have hu : updateRuleStatus s ruleId b = (false, s) := by
      unfold updateRuleStatus
      rw [if_neg (by simp [hfalse])]
    rw [hu]
    refine ⟨rfl, rfl, by simp [hfalse], ?_⟩
    intro hex
    obtain ⟨r0, hr0, hid⟩ := hex
    exact absurd (List.any_eq_true.mpr ⟨r0, hr0, by simp [hid]⟩) h

/-- Witness for C8 at a concrete input: updating the known id `no-eval`
in `s8` leaves the store unchanged, succeeds, and flips the in-memory
flag. -/
theorem c8_update_rule_status_witness :
    (updateRuleStatus s8 "no-eval" false).2.store = s8.store
    ∧ (updateRuleStatus s8 "no-eval" false).1 = true
    ∧ ∃ r2 ∈ (updateRuleStatus s8 "no-eval" false).2.rules,
        r2.id = "no-eval" ∧ r2.enabled = false := by
  have h := c8_update_rule_status s8 "no-eval" false
  refine ⟨h.1, ?_, h.2.2.2 ⟨ruleCrit, by simp [s8], rfl⟩⟩
  rw [h.2.2.1]
  decide

/-- C6: for every project scan — security and accessibility alike — in
which every collected file is readable, analysable and has at least one
issue, and more than 50 files were collected, the report keeps exactly
the first 50 per-file results in traversal order while
`filesWithIssues`, `totalFilesScanned` and `totalViolations` are
computed from the untruncated totals. -/
theorem c6_bounded_reporting (eng : RegexEngine) (rules : List Rule)
    (fw rootPath : String) (tree : List FsEntry)
    (hallS : (analyzerScanList rootPath tree).all
      (keepsFile eng rules fw) = true)
    (hallA : (analyzerScanList rootPath tree).all
      (a11yKeepsFile eng rules) = true)
    (hN : 50 < (analyzerScanList rootPath tree).length) :
    (analyzeProjectSecurity eng rules fw rootPath tree).results.length = 50
    ∧ (analyzeProjectSecurity eng rules fw rootPath tree).filesWithIssues
      = (analyzerScanList rootPath tree).length
    ∧ (analyzeProjectSecurity eng rules fw rootPath tree).totalFilesScanned
      = (analyzerScanList rootPath tree).length
    ∧ (analyzeProjectSecurity eng rules fw rootPath tree).results
      = (securityProjectLoop eng rules fw
          (analyzerScanList rootPath tree)).take 50
    ∧ (analyzeProjectSecurity eng rules fw rootPath tree).totalViolations
      = ((securityProjectLoop eng rules fw
          (analyzerScanList rootPath tree)).map fun r =>
            r.issues.length).sum
    ∧ (analyzeProjectAccessibility eng rules rootPath tree).map
        (fun a => a.results.length) = Except.ok 50
    ∧ (analyzeProjectAccessibility eng rules rootPath tree).map
        (fun a => a.filesWithIssues)
      = Except.ok (analyzerScanList rootPath tree).length
    ∧ (analyzeProjectAccessibility eng rules rootPath tree).map
        (fun a => a.totalFilesScanned)
      = Except.ok (analyzerScanList rootPath tree).length
    ∧ (analyzeProjectAccessibility eng rules rootPath tree).map
        (fun a => a.results)
      = Except.ok ((a11yKept eng rules
          (analyzerScanList rootPath tree)).take 50)
    ∧ (analyzeProjectAccessibility eng rules rootPath tree).map
        (fun a => a.totalViolations)
      = Except.ok ((a11yKept eng rules
          (analyzerScanList rootPath tree)).map fun r =>
            r.issues.length).sum := by
  have hlenS := securityProjectLoop_length_all eng rules fw
    (analyzerScanList rootPath tree) hallS
  have hlenA := a11yKept_length_all eng rules
    (analyzerScanList rootPath tree) hallA
  have hloopA := a11yProjectLoop_ok eng rules
    (analyzerScanList rootPath tree) hallA
  have htakeS : ((securityProjectLoop eng rules fw
      (analyzerScanList rootPath tree)).take 50).length = 50 := by
    rw [List.length_take, hlenS]
    exact Nat.min_eq_left (Nat.le_of_lt hN)
  have htakeA : ((a11yKept eng rules
      (analyzerScanList rootPath tree)).take 50).length = 50 := by
    rw [List.length_take, hlenA]
    exact Nat.min_eq_left (Nat.le_of_lt hN)
  have hacc : analyzeProjectAccessibility eng rules rootPath tree
      = Except.ok
        { totalFilesScanned := (analyzerScanList rootPath tree).length
          filesWithIssues :=
            (a11yKept eng rules (analyzerScanList rootPath tree)).length
          totalViolations := ((a11yKept eng rules
            (analyzerScanList rootPath tree)).map fun r =>
              r.issues.length).sum
          results := (a11yKept eng rules
            (analyzerScanList rootPath tree)).take 50
          summary := "Found " ++ toString ((a11yKept eng rules
              (analyzerScanList rootPath tree)).map fun r =>
                r.issues.length).sum
            ++ " accessibility issue(s) across "
            ++ toString (a11yKept eng rules
              (analyzerScanList rootPath tree)).length
            ++ " file(s)" } := by
    unfold analyzeProjectAccessibility
    simp only [hloopA]
  refine ⟨htakeS, hlenS, rfl, rfl, rfl, ?_, ?_, ?_, ?_, ?_⟩
  · rw [hacc, Except.map]
    exact congrArg Except.ok htakeA
  · rw [hacc, Except.map]
    exact congrArg Except.ok hlenA
  · rw [hacc, Except.map]
  · rw [hacc, Except.map]
  · rw [hacc, Except.map]

/-- Witness for C6 at a concrete input: a flat project of 51 files that
each trigger `ruleCrit` reports 50 results but 51 files with issues, in
both the security and the accessibility scan. -/
theorem c6_bounded_reporting_witness :
    (analyzeProjectSecurity engAll [ruleCrit] "nextjs" ""
      tree51).results.length = 50
    ∧ (analyzeProjectSecurity engAll [ruleCrit] "nextjs" ""
      tree51).filesWithIssues = 51
    ∧ (analyzeProjectAccessibility engAll [ruleCrit] "" tree51).map
        (fun a => a.results.length) = Except.ok 50
    ∧ (analyzeProjectAccessibility engAll [ruleCrit] "" tree51).map
        (fun a => a.filesWithIssues) = Except.ok 51 := by
  have h := c6_bounded_reporting engAll [ruleCrit] "nextjs" "" tree51
    (by decide) (by decide) (by decide)
  refine ⟨h.1, ?_, h.2.2.2.2.2.1, ?_⟩
  · rw [h.2.1]
    decide
  · rw [h.2.2.2.2.2.2.1]
    exact congrArg Except.ok (by decide)

/-- C1 counterexample: the claim's formula subtracts 5 per
medium-severity violation, but the code's security score only penalises
`'error'` and `'warning'` issues. One medium-severity violation maps to
an `'info'` issue: the code returns score 100 where the claimed formula
gives `max(0, 100 − 5×1) = 95`. -/
theorem c1_counterexample :
    (analyzeCodeSecurity engAll [ruleMed] "nextjs" "eval(x)" "f.ts").map
        (fun r => r.securityScore) = Except.ok 100
    ∧ (analyzeCodeSecurity engAll [ruleMed] "nextjs" "eval(x)" "f.ts").map
        (fun r => severityViolationCount Severity.medium r.ruleResults)
      = Except.ok 1
    ∧ (analyzeCodeSecurity engAll [ruleMed] "nextjs" "eval(x)" "f.ts").map
        (fun r => severityViolationCount Severity.critical r.ruleResults)
      = Except.ok 0
    ∧ (analyzeCodeSecurity engAll [ruleMed] "nextjs" "eval(x)" "f.ts").map
        (fun r => severityViolationCount Severity.high r.ruleResults)
      = Except.ok 0
    ∧ specClaimedScore 0 0 1 = 95
    ∧ (100 : Int) ≠ 95 := by
  refine ⟨rfl, rfl, rfl, rfl, by decide, by decide⟩

/-- C1 (amended): the security score the code returns is
`max(0, 100 − 20×criticalCount − 10×highCount)` where the counts are
`'error'` issues (exactly the violations of critical-severity rules) and
`'warning'` issues (exactly the violations of high-severity rules);
medium and low severities carry no penalty. The score always lies in
[0, 100] and never increases when an issue is added. The code-quality
score of `CodeAnalyzer.analyzeCode` uses weights 10 and 5 instead and
also lies in [0, 100]. -/
theorem c1_security_score (eng : RegexEngine) (rules : List Rule)
    (fw code filePath : String) (r : SecurityCheckResult)
    (h : analyzeCodeSecurity eng rules fw code filePath = Except.ok r) :
    r.securityScore
      = max 0 (100 - 20 * (countType IssueType.error r.issues : Int)
        - 10 * (countType IssueType.warning r.issues : Int))
    ∧ 0 ≤ r.securityScore ∧ r.securityScore ≤ 100
    ∧ countType IssueType.error r.issues
      = severityViolationCount Severity.critical r.ruleResults
    ∧ countType IssueType.warning r.issues
      = severityViolationCount Severity.high r.ruleResults
    ∧ (∀ extra : Issue,
        securityScoreOf (extra :: r.issues) ≤ securityScoreOf r.issues)
    ∧ (∀ issues : List Issue,
        0 ≤ codeQualityScoreOf issues ∧ codeQualityScoreOf issues ≤ 100) := by
  obtain ⟨hiss, hscore, -⟩ :=
    analyzeCodeSecurity_ok eng rules fw code filePath r h
  refine ⟨by rw [hscore]; rfl,
    by rw [hscore]; exact (securityScoreOf_bounds _).1,
    by rw [hscore]; exact (securityScoreOf_bounds _).2, ?_, ?_,
    fun extra => securityScoreOf_mono extra r.issues,
    fun issues => codeQualityScoreOf_bounds issues⟩
  · rw [hiss, countType_issuesOf]
    exact sum_if_type_eq_severity IssueType.error Severity.critical
      (fun s => by cases s <;> simp [issueTypeOf]) r.ruleResults
  · rw [hiss, countType_issuesOf]
    exact sum_if_type_eq_severity IssueType.warning Severity.high
      (fun s => by cases s <;> simp [issueTypeOf]) r.ruleResults

/-- Witness for C1 at a concrete input: one critical violation yields
score 80 = max(0, 100 − 20). -/
theorem c1_security_score_witness :
    analyzeCodeSecurity engAll [ruleCrit] "nextjs" "eval(x)" "f.ts"
      = Except.ok secDemoResult
    ∧ secDemoResult.securityScore
      = max 0 (100
        - 20 * (countType IssueType.error secDemoResult.issues : Int)
        - 10 * (countType IssueType.warning secDemoResult.issues : Int))
    ∧ 0 ≤ secDemoResult.securityScore
    ∧ secDemoResult.securityScore ≤ 100
    ∧ secDemoResult.securityScore = 80 := by
  have heq : analyzeCodeSecurity engAll [ruleCrit] "nextjs" "eval(x)"
      "f.ts" = Except.ok secDemoResult := rfl
  have h := c1_security_score engAll [ruleCrit] "nextjs" "eval(x)" "f.ts"
    secDemoResult heq
  exact ⟨heq, h.1, h.2.1, h.2.2.1, by decide⟩

/-- C9: evaluating the same rule against the same text and file path
twice yields identical violation lists (same length, order, lines and
messages): both evaluators are embedded as pure functions — the source
constructs fresh `RegExp` objects on every call, reads no other state in
`checkRule`, and so is deterministic in (rule, text, path). -/
theorem c9_idempotent_evaluation (eng : RegexEngine)
    (code filePath : String) (rule : Rule) :
    checkRuleSec eng code filePath rule = checkRuleSec eng code filePath rule
    ∧ checkRuleA11y eng code filePath rule
      = checkRuleA11y eng code filePath rule :=
  ⟨rfl, rfl⟩

/-- C4 (code bug): an invalid regex is NOT always caught per-pattern.
The accessibility evaluator guards all four lists, but the security
evaluator compiles `excludePatterns` outside any `try`: a rule whose
`excludePatterns` contains the invalid regex `"("` makes
`SecurityAnalyzer.checkRule` throw, which aborts the whole
`analyzeCodeSecurity` call — including every other rule of the same
evaluation (here `ruleCrit`, which fires on the same text when analysed
alone). The accessibility evaluator treats the same rule as intended.
The security analyzer itself catches invalid regexes in `patterns` and
logs a warning, so the unguarded `excludePatterns` compile is a slip
against that evident intent. -/
theorem c4_invalid_exclude_regex_aborts :
    checkRuleSec engSub "eval(x)" "f.ts" ruleBadExclude = Except.error ()
    ∧ analyzeCodeSecurity engSub [ruleBadExclude, ruleCrit] "nextjs"
        "eval(x)" "f.ts" = Except.error ()
    ∧ (analyzeCodeSecurity engSub [ruleCrit] "nextjs" "eval(x)"
        "f.ts").map (fun r => r.issues.length) = Except.ok 1
    ∧ checkRuleA11y engSub "eval(x)" "f.ts" ruleBadExclude
      = [{ line := 1, message := "Bad exclude", code := "bad-exclude" }]
    ∧ analyzeCodeSecurity engSub [ruleBadExclude] "nextjs" "no match here"
        "f.ts" = Except.error () := by
  refine ⟨rfl, rfl, rfl, by decide, rfl⟩

/-- C10: once the framework-profile cache is populated by a first
`detectFramework r1`, every later `detectFramework r2` returns the
profile derived for `r1` unchanged and leaves the state unchanged, for
any `r2`; only `clearCache` makes a later call re-derive, now from
`r2`. -/
theorem c10_detect_framework_cache (derive : String → ProjectInfo)
    (cwd r1 r2 : String) (s0 : DetectorState)
    (h : s0.cachedProjectInfo = none) :
    detectFramework derive cwd
        (detectFramework derive cwd s0 (some r1)).2 (some r2)
      = ((detectFramework derive cwd s0 (some r1)).1,
        (detectFramework derive cwd s0 (some r1)).2)
    ∧ (detectFramework derive cwd s0 (some r1)).1 = derive r1
    ∧ (detectFramework derive cwd
        (clearCache (detectFramework derive cwd s0 (some r1)).2)
        (some r2)).1 = derive r2 := by
  simp [detectFramework, clearCache, h]

/-- Witness for C10 at a concrete derivation that distinguishes the two
roots: the second call with root "B" still returns the profile derived
for "A", and after `clearCache` it returns the profile for "B". -/
theorem c10_detect_framework_cache_witness :
    detectFramework demoDerive "cwd"
        (detectFramework demoDerive "cwd" ⟨none⟩ (some "A")).2 (some "B")
      = ((detectFramework demoDerive "cwd" ⟨none⟩ (some "A")).1,
        (detectFramework demoDerive "cwd" ⟨none⟩ (some "A")).2)
    ∧ (detectFramework demoDerive "cwd" ⟨none⟩ (some "A")).1
      = demoDerive "A"
    ∧ (detectFramework demoDerive "cwd"
        (clearCache (detectFramework demoDerive "cwd" ⟨none⟩ (some "A")).2)
        (some "B")).1 = demoDerive "B"
    ∧ demoDerive "A" ≠ demoDerive "B" := by
  refine ⟨(c10_detect_framework_cache demoDerive "cwd" "A" "B" ⟨none⟩ rfl).1,
    (c10_detect_framework_cache demoDerive "cwd" "A" "B" ⟨none⟩ rfl).2.1,
    (c10_detect_framework_cache demoDerive "cwd" "A" "B" ⟨none⟩ rfl).2.2,
    by decide⟩

end MCP
